import Mathlib

/-!
Shallow embedding of the pasty-rs client library (src/client.rs, src/model.rs,
src/errors.rs) together with the behaviour of its two external collaborators,
the `url` crate (URL parsing and joining, WHATWG-style, simplified: no IDNA,
no IPv6 hosts, no dot-segment normalisation — none of which the client's fixed
`/api/v2/...` suffixes or the inputs considered here exercise) and the
`reqwest` crate (request building, `IntoUrl`, `bearer_auth`, `json`,
`error_for_status`).
-/

namespace Pasty

/-! ## JSON values (the serde_json data model, restricted to what the client uses) -/

inductive Json where
  | null
  | bool (b : Bool)
  | num (n : Int)
  | str (s : String)
  | arr (elems : List Json)
  | obj (fields : List (String × Json))
deriving Repr

/-- First value bound to key `k`, as serde's map visitor sees the fields. -/
def lookupField : List (String × Json) → String → Option Json
  | [], _ => none
  | (k, v) :: fs, k₀ => if k = k₀ then some v else lookupField fs k₀

def Json.getField : Json → String → Option Json
  | .obj fs, k => lookupField fs k
  | _, _ => none

def Json.getStr : Json → Option String
  | .str s => some s
  | _ => none

/-! ## Data model (src/model.rs) -/

/-- Rust `PfEncryption { alg: String, iv: String }` (model.rs). -/
structure PfEncryption where
  alg : String
  iv : String
deriving Repr, DecidableEq

/-- Rust `Metadata { pf_encryption: Option<PfEncryption> }` (model.rs). -/
structure Metadata where
  pf_encryption : Option PfEncryption
deriving Repr, DecidableEq

/-- Rust `Paste { id, content, created: usize, metadata: Option<Metadata> }` (model.rs). -/
structure Paste where
  id : String
  content : String
  created : Nat
  metadata : Option Metadata
deriving Repr, DecidableEq

/-- Rust `CreatePasteRequest { content, metadata: Option<Metadata> }` (model.rs). -/
structure CreatePasteRequest where
  content : String
  metadata : Option Metadata
deriving Repr, DecidableEq

/-- Rust `CreatedPaste { modification_token (wire key modificationToken), #[serde(flatten)] paste }`
(model.rs): the paste's own fields sit beside `modificationToken` in one flat object. -/
structure CreatedPaste where
  modification_token : String
  paste : Paste
deriving Repr, DecidableEq

/-! ### Serialization, following serde's derived impls: fields emitted in
declaration order; an `Option` field without `skip_serializing_if` is emitted
as an explicit `null` when `None`. -/

def PfEncryption.toJson (e : PfEncryption) : Json :=
  .obj [("alg", .str e.alg), ("iv", .str e.iv)]

def Metadata.toJson (m : Metadata) : Json :=
  .obj [("pf_encryption", match m.pf_encryption with
                          | none => .null
                          | some e => e.toJson)]

def CreatePasteRequest.toJson (r : CreatePasteRequest) : Json :=
  .obj [("content", .str r.content),
        ("metadata", match r.metadata with
                     | none => .null
                     | some m => m.toJson)]

/-! ### Deserialization, following serde's derived impls: a struct decodes from
a JSON object; a missing required field is an error; an `Option` field decodes
to `None` both when the key is absent and when it is `null`; unknown keys are
ignored (no `deny_unknown_fields`). `#[serde(flatten)]` decodes the flattened
struct from the sibling keys of the same object. -/

def PfEncryption.fromJson (j : Json) : Option PfEncryption :=
  match j with
  | .obj fs =>
    match lookupField fs "alg" with
    | some (.str alg) =>
      match lookupField fs "iv" with
      | some (.str iv) => some ⟨alg, iv⟩
      | _ => none
    | _ => none
  | _ => none

def Metadata.fromJson (j : Json) : Option Metadata :=
  match j with
  | .obj fs =>
    match lookupField fs "pf_encryption" with
    | none => some ⟨none⟩
    | some .null => some ⟨none⟩
    | some v => (PfEncryption.fromJson v).map (fun e => ⟨some e⟩)
  | _ => none

/-- Decode the `metadata` field of a flat object: absent or `null` gives `None`. -/
def lookupMetadata (fs : List (String × Json)) : Option (Option Metadata) :=
  match lookupField fs "metadata" with
  | none => some none
  | some .null => some none
  | some v => (Metadata.fromJson v).map some

def Paste.fromJson (j : Json) : Option Paste :=
  match j with
  | .obj fs =>
    match lookupField fs "id" with
    | some (.str id) =>
      match lookupField fs "content" with
      | some (.str content) =>
        match lookupField fs "created" with
        | some (.num n) =>
          if 0 ≤ n then
            match lookupMetadata fs with
            | some md => some ⟨id, content, n.toNat, md⟩
            | none => none
          else none
        | _ => none
      | _ => none
    | _ => none
  | _ => none

def CreatedPaste.fromJson (j : Json) : Option CreatedPaste :=
  match j with
  | .obj fs =>
    match lookupField fs "modificationToken" with
    | some (.str tok) =>
      match Paste.fromJson (.obj fs) with
      | some p => some ⟨tok, p⟩
      | none => none
    | _ => none
  | _ => none

/-! ## URLs: model of the `url` crate (WHATWG URL standard, simplified).

Simplifications, none of which the client's call sites or the inputs
considered in the theorems below exercise: hosts are restricted to
registrable-domain characters (no IDNA mapping, no IPv6 `[...]` literals, no
percent-decoding in hosts), `file`-scheme empty hosts are not special-cased,
fragments are stored unencoded, and dot segments in paths are not normalised
(the client only supplies `/api/v2/...` paths, which contain none). -/

structure Url where
  scheme : String
  host : Option String
  port : Option Nat
  path : String
  query : Option String
  fragment : Option String
deriving Repr, DecidableEq

def Url.hasHost (u : Url) : Bool := u.host.isSome

/-- The WHATWG special schemes (the url crate parses an authority for these
even when the `//` is missing). -/
def specialSchemes : List String := ["http", "https", "ws", "wss", "ftp", "file"]

def defaultPort (scheme : String) : Option Nat :=
  if scheme = "http" then some 80
  else if scheme = "https" then some 443
  else if scheme = "ws" then some 80
  else if scheme = "wss" then some 443
  else if scheme = "ftp" then some 21
  else none

def isSchemeStartChar (c : Char) : Bool :=
  let n := c.toNat
  (65 ≤ n && n ≤ 90) || (97 ≤ n && n ≤ 122)

def isSchemeChar (c : Char) : Bool :=
  isSchemeStartChar c || (48 ≤ c.toNat && c.toNat ≤ 57) || c = '+' || c = '-' || c = '.'

/-- Split `scheme ":" rest`: an ASCII-alpha start char, scheme chars, then a
colon; anything else (in particular the empty string, or a string with no
scheme) is a relative reference, which `Url::parse` rejects
(`RelativeUrlWithoutBase`). -/
def takeSchemeAux (acc : List Char) : List Char → Option (List Char × List Char)
  | [] => none
  | c :: cs =>
    if c = ':' then some (acc.reverse, cs)
    else if isSchemeChar c then takeSchemeAux (c :: acc) cs
    else none

def takeScheme : List Char → Option (List Char × List Char)
  | [] => none
  | c :: cs => if isSchemeStartChar c then takeSchemeAux [c] cs else none

/-- ASCII characters kept verbatim in a path by the url crate's percent-encode
set (controls, space, `"`, `<`, `>`, backtick and the two curly braces are
escaped; everything non-ASCII is escaped as UTF-8 bytes). -/
def pathSafeChar (c : Char) : Bool :=
  let n := c.toNat
  decide (0x20 < n) && decide (n < 0x7f) && decide (n ≠ 0x22) && decide (n ≠ 0x3c) &&
    decide (n ≠ 0x3e) && decide (n ≠ 0x60) && decide (n ≠ 0x7b) && decide (n ≠ 0x7d)

def querySafeChar (c : Char) : Bool :=
  let n := c.toNat
  decide (0x20 < n) && decide (n < 0x7f) && decide (n ≠ 0x22) && decide (n ≠ 0x3c) &&
    decide (n ≠ 0x3e)

def hexDigitChar (n : Nat) : Char :=
  if n < 10 then Char.ofNat (48 + n) else Char.ofNat (55 + n)

def pctByte (b : Nat) : List Char :=
  ['%', hexDigitChar (b / 16 % 16), hexDigitChar (b % 16)]

def utf8Bytes (c : Char) : List Nat :=
  let n := c.toNat
  if n < 0x80 then [n]
  else if n < 0x800 then [0xc0 + n / 64, 0x80 + n % 64]
  else if n < 0x10000 then [0xe0 + n / 4096, 0x80 + n / 64 % 64, 0x80 + n % 64]
  else [0xf0 + n / 262144, 0x80 + n / 4096 % 64, 0x80 + n / 64 % 64, 0x80 + n % 64]

def encodeWith (safe : Char → Bool) (cs : List Char) : List Char :=
  cs.flatMap (fun c => if safe c then [c] else (utf8Bytes c).flatMap pctByte)

def encodePath (cs : List Char) : List Char := encodeWith pathSafeChar cs

def encodeQuery (cs : List Char) : List Char := encodeWith querySafeChar cs

/-- Split a path-and-beyond reference into path, `?`-query and `#`-fragment. -/
def splitPQF : List Char → List Char × Option (List Char) × Option (List Char)
  | [] => ([], none, none)
  | c :: cs =>
    if c = '?' then
      ([], some (cs.takeWhile (fun d => d ≠ '#')),
       if cs.contains '#' then some ((cs.dropWhile (fun d => d ≠ '#')).drop 1) else none)
    else if c = '#' then ([], none, some cs)
    else
      let (p, q, f) := splitPQF cs
      (c :: p, q, f)

/-- Registrable-domain host characters (simplified host validation). -/
def isHostChar (c : Char) : Bool :=
  let n := c.toNat
  (48 ≤ n && n ≤ 57) || (65 ≤ n && n ≤ 90) || (97 ≤ n && n ≤ 122) ||
    c = '-' || c = '.' || c = '_'

/-- Drop the `userinfo "@"` prefix of an authority (everything up to the last
`@`), as the WHATWG host parser does. -/
def afterLastAt (cs : List Char) : List Char :=
  (cs.foldl (fun acc c => if c = '@' then [] else c :: acc) []).reverse

/-- Split `host ":" port` at the first colon. -/
def splitAtColon : List Char → List Char × List Char
  | [] => ([], [])
  | c :: cs =>
    if c = ':' then ([], cs)
    else
      let (h, p) := splitAtColon cs
      (c :: h, p)

/-- An empty port string means no explicit port; digits must fit in 16 bits;
anything else (a second colon, a letter) is an invalid port. -/
def parsePort (cs : List Char) : Option (Option Nat) :=
  if cs = [] then some none
  else if cs.all (fun c => 48 ≤ c.toNat && c.toNat ≤ 57) then
    let n := cs.foldl (fun a c => a * 10 + (c.toNat - 48)) 0
    if n < 65536 then some (some n) else none
  else none

/-- Parse `authority path? query? fragment?` against a known scheme. An empty
or invalid host is a parse error. An explicit port equal to the scheme's
default port is dropped. An empty path becomes `/`. -/
def parseAuthority (scheme : String) (cs : List Char) : Option Url :=
  let auth := cs.takeWhile (fun c => c ≠ '/' && c ≠ '?' && c ≠ '#')
  let rest := cs.dropWhile (fun c => c ≠ '/' && c ≠ '?' && c ≠ '#')
  let hostport := afterLastAt auth
  let (h, pstr) := splitAtColon hostport
  if h = [] then none
  else if !h.all isHostChar then none
  else
    match parsePort pstr with
    | none => none
    | some port₀ =>
      let port := if port₀ = defaultPort scheme then none else port₀
      let (p, q, f) := splitPQF rest
      some { scheme := scheme, host := some (String.mk h), port := port,
             path := String.mk (encodePath (if p = [] then ['/'] else p)),
             query := q.map (fun l => String.mk (encodeQuery l)),
             fragment := f.map String.mk }

/-- Model of `url::Url::parse`. A string without a `scheme:` prefix fails
(`RelativeUrlWithoutBase`). A special scheme is followed by an authority (any
number of slashes, including zero, may precede it); a non-special scheme with
`//` likewise; otherwise the remainder is an opaque (cannot-be-a-base) path
and the URL has no host. -/
def parseUrl (s : String) : Option Url :=
  match takeScheme s.data with
  | none => none
  | some (schemeRaw, rest) =>
    let scheme := String.mk (schemeRaw.map Char.toLower)
    if specialSchemes.contains scheme then
      parseAuthority scheme (rest.dropWhile (fun c => c = '/' || c = '\\'))
    else if rest.take 2 = ['/', '/'] then
      parseAuthority scheme (rest.drop 2)
    else
      let (p, q, f) := splitPQF rest
      some { scheme := scheme, host := none, port := none,
             path := String.mk p, query := q.map String.mk,
             fragment := f.map String.mk }

/-- Model of `url::Url::join` for the reference shapes that can reach it from
this client: a full URL, a protocol-relative `//...` reference, or an
absolute-path `/...` reference (every suffix the client joins begins with
`/api/v2/`). An absolute-path reference keeps the base's scheme, host and
port and replaces its path, query and fragment. Relative-path merging is not
modelled (the client never produces such a reference). -/
def Url.join (base : Url) (input : String) : Option Url :=
  match takeScheme input.data with
  | some _ => parseUrl input
  | none =>
    let cs := input.data
    if cs.take 2 = ['/', '/'] then parseAuthority base.scheme (cs.drop 2)
    else if cs.take 1 = ['/'] then
      let (p, q, f) := splitPQF cs
      some { base with path := String.mk (encodePath p),
                       query := q.map (fun l => String.mk (encodeQuery l)),
                       fragment := f.map String.mk }
    else none

/-! ## Errors (src/errors.rs) and the reqwest collaborator -/

/-- The distinct reqwest failure sources the client can hit: a builder error
(among them a wrapped URL-parse failure from `IntoUrl` on a string), the
`IntoUrl` rejection of a URL without a host, a non-success HTTP status from
`error_for_status`, and a body-decode failure from `json()`. All of them carry
the single `reqwest::Error` type into `Error::Reqwest`. -/
inductive ReqwestErrorKind where
  | builder
  | badScheme
  | status (code : Nat)
  | decode
deriving Repr, DecidableEq

/-- Rust `enum Error { Reqwest(reqwest::Error), UrlParse(url::ParseError) }`
(errors.rs). `UrlParse` is produced via `From<url::ParseError>`, which in this
crate only `Url::join` calls can trigger; `IntoUrl` wraps its parse failures
into a `reqwest::Error` first. -/
inductive Error where
  | Reqwest (kind : ReqwestErrorKind)
  | UrlParse
deriving Repr, DecidableEq

/-- Rust `reqwest::IntoUrl` on a `&str`: parse the string (a parse failure becomes
a reqwest *builder* error, not a `url::ParseError`), then reject a URL without
a host (`url_bad_scheme`, also a reqwest error). -/
def intoUrl (s : String) : Except ReqwestErrorKind Url :=
  match parseUrl s with
  | none => .error .builder
  | some u => if u.hasHost then .ok u else .error .badScheme

inductive Method where
  | GET
  | POST
  | PATCH
  | DELETE
deriving Repr, DecidableEq

/-- A built `reqwest::Request`: method, URL, headers in insertion order, and
an optional JSON body. -/
structure Request where
  method : Method
  url : Url
  headers : List (String × String)
  body : Option Json
deriving Repr

/-- Rust `RequestBuilder::build()` for a builder seeded with `Method`/`Url`: the
builder itself was created through `IntoUrl` on the `Url`, which rejects a
host-less URL with a reqwest error surfaced at `build()`. -/
def buildRequest (m : Method) (u : Url) (headers : List (String × String))
    (body : Option Json) : Except Error Request :=
  if u.hasHost then .ok { method := m, url := u, headers := headers, body := body }
  else .error (.Reqwest .badScheme)

/-- Rust `RequestBuilder::json(..)` sets this header alongside the serialized body. -/
def contentTypeJson : String × String := ("content-type", "application/json")

/-- Rust `RequestBuilder::bearer_auth(t)` sets `authorization: Bearer t`. -/
def bearerHeader (token : String) : String × String :=
  ("authorization", "Bearer " ++ token)

/-! ## Clients (src/client.rs). Each async endpoint method is split into the
request it builds (pure, modelled here) and the shared execution helpers
`req_body`/`req` (modelled below on an already-executed response, since the
transport itself is the external collaborator). -/

/-- Rust `UnauthenticatedClient { client: reqwest::Client, host: Url }`. The
transport handle has no observable state at this layer. -/
structure UnauthenticatedClient where
  client : Unit
  host : Url
deriving Repr, DecidableEq

/-- Rust `UnauthenticatedClient::new(host)`: `host.into_url()?`, a default
transport handle, and no network I/O (the function is pure by construction). -/
def UnauthenticatedClient.new (host : String) : Except Error UnauthenticatedClient :=
  match intoUrl host with
  | .error k => .error (.Reqwest k)
  | .ok u => .ok { client := (), host := u }

/-- Rust `application_information()`: `GET self.host.join("/api/v2/info")?`. -/
def UnauthenticatedClient.application_information (c : UnauthenticatedClient) :
    Except Error Request :=
  match c.host.join "/api/v2/info" with
  | none => .error .UrlParse
  | some u => buildRequest .GET u [] none

/-- Rust `paste(id)`: `GET self.host.join(format!("/api/v2/pastes/id"))?` with the
id interpolated after the fixed prefix. -/
def UnauthenticatedClient.paste (c : UnauthenticatedClient) (id : String) :
    Except Error Request :=
  match c.host.join ("/api/v2/pastes/" ++ id) with
  | none => .error .UrlParse
  | some u => buildRequest .GET u [] none

/-- Rust `create_paste(content, metadata)`: `POST self.host.join("/api/v2/pastes")?`
with `.json(&CreatePasteRequest { content, metadata })`. -/
def UnauthenticatedClient.create_paste (c : UnauthenticatedClient)
    (content : String) (metadata : Option Metadata) : Except Error Request :=
  match c.host.join "/api/v2/pastes" with
  | none => .error .UrlParse
  | some u =>
    buildRequest .POST u [contentTypeJson]
      (some (CreatePasteRequest.toJson { content := content, metadata := metadata }))

/-- Rust `AuthenticatedClient { client: UnauthenticatedClient, token: String }`. -/
structure AuthenticatedClient where
  client : UnauthenticatedClient
  token : String
deriving Repr, DecidableEq

/-- Rust `authenticate(token)`: wraps self with the token; no validation, no I/O,
cannot fail (its return type is not a `Result`). -/
def UnauthenticatedClient.authenticate (c : UnauthenticatedClient) (token : String) :
    AuthenticatedClient :=
  { client := c, token := token }

/-- Rust `inner()`: the wrapped `UnauthenticatedClient`. -/
def AuthenticatedClient.inner (a : AuthenticatedClient) : UnauthenticatedClient :=
  a.client

/-- Rust `update_paste(id, content, metadata)`: `PATCH .../api/v2/pastes/id` with
`.json(&CreatePasteRequest { .. })` then `.bearer_auth(&self.token)`. -/
def AuthenticatedClient.update_paste (a : AuthenticatedClient) (id : String)
    (content : String) (metadata : Option Metadata) : Except Error Request :=
  match a.client.host.join ("/api/v2/pastes/" ++ id) with
  | none => .error .UrlParse
  | some u =>
    buildRequest .PATCH u [contentTypeJson, bearerHeader a.token]
      (some (CreatePasteRequest.toJson { content := content, metadata := metadata }))

/-- Rust `delete_paste(id)`: `DELETE .../api/v2/pastes/id` with
`.bearer_auth(&self.token)` and no body. -/
def AuthenticatedClient.delete_paste (a : AuthenticatedClient) (id : String) :
    Except Error Request :=
  match a.client.host.join ("/api/v2/pastes/" ++ id) with
  | none => .error .UrlParse
  | some u => buildRequest .DELETE u [bearerHeader a.token] none

/-! ## Response pipeline (the tail of client.rs) -/

/-- An executed HTTP response: final status and a body already read as a JSON
value (`Json.null` stands for an empty or irrelevant body — `req` never looks
at it). -/
structure Response where
  status : Nat
  body : Json

/-- Rust `Response::error_for_status()`: an error exactly for client-error (4xx)
and server-error (5xx) statuses; every other status passes through. -/
def errorForStatus (res : Response) : Except Error Response :=
  if 400 ≤ res.status ∧ res.status ≤ 599 then .error (.Reqwest (.status res.status))
  else .ok res

/-- Rust `req_body`: execute, `error_for_status()?`, then decode the JSON body into
the target type (`decode` is the target type's deserializer); a decode
mismatch is a reqwest error. -/
def req_body {α : Type} (decode : Json → Option α) (res : Response) : Except Error α :=
  match errorForStatus res with
  | .error e => .error e
  | .ok r =>
    match decode r.body with
    | some v => .ok v
    | none => .error (.Reqwest .decode)

/-- Rust `req`: execute, `error_for_status()?`, discard the body. -/
def req (res : Response) : Except Error Unit :=
  match errorForStatus res with
  | .error e => .error e
  | .ok _ => .ok ()

/-! ## Auxiliary definitions for the statements -/

/-- Characters of a well-formed pasty paste id: ASCII alphanumeric (pasty ids
are short alphanumeric slugs). -/
def isPasteIdChar (c : Char) : Bool :=
  let n := c.toNat
  (48 ≤ n && n ≤ 57) || (65 ≤ n && n ≤ 90) || (97 ≤ n && n ≤ 122)

/-- A valid paste id: nonempty is not required for the path claims, only that
every character is alphanumeric. -/
def validPasteId (id : String) : Bool := id.data.all isPasteIdChar

/-- Spec comparison definition (no such endpoint exists in client.rs): the
unauthenticated PATCH counterpart of `update_paste` — the identical builder
chain (same URL join, method and JSON body) with the `bearer_auth` call left
out. The spec claims the authenticated request differs from this shape only
by the authorization header. -/
def update_paste_unauthenticated (c : UnauthenticatedClient) (id : String)
    (content : String) (metadata : Option Metadata) : Except Error Request :=
  match c.host.join ("/api/v2/pastes/" ++ id) with
  | none => .error .UrlParse
  | some u =>
    buildRequest .PATCH u [contentTypeJson]
      (some (CreatePasteRequest.toJson { content := content, metadata := metadata }))

/-- Spec comparison definition: the DELETE counterpart of `delete_paste`
without the `bearer_auth` call. -/
def delete_paste_unauthenticated (c : UnauthenticatedClient) (id : String) :
    Except Error Request :=
  match c.host.join ("/api/v2/pastes/" ++ id) with
  | none => .error .UrlParse
  | some u => buildRequest .DELETE u [] none

/-- Appending the bearer header is the only change `bearer_auth` makes to a
built request. -/
def addAuthHeader (token : String) (r : Request) : Request :=
  { r with headers := r.headers ++ [bearerHeader token] }

/-- A concrete host for witnesses: the parse of `https://pasty.lus.pm`. -/
def exampleHost : Url :=
  { scheme := "https", host := some "pasty.lus.pm", port := none,
    path := "/", query := none, fragment := none }

/-! ## Helper lemmas -/

theorem pathSafe_of_pasteIdChar {c : Char} (h : isPasteIdChar c = true) :
    pathSafeChar c = true := by
  simp only [isPasteIdChar, Bool.or_eq_true, Bool.and_eq_true, decide_eq_true_eq] at h
  simp only [pathSafeChar, Bool.and_eq_true, decide_eq_true_eq]
  omega

theorem ne_qmark_hash_of_pasteIdChar {c : Char} (h : isPasteIdChar c = true) :
    c ≠ '?' ∧ c ≠ '#' := by
  constructor <;> intro he <;> subst he <;> exact absurd h (by decide)

theorem splitPQF_no_delims {l : List Char} (h : ∀ c ∈ l, c ≠ '?' ∧ c ≠ '#') :
    splitPQF l = (l, none, none) := by
  induction l with
  | nil => rfl
  | cons c cs ih =>
    obtain ⟨h1, h2⟩ := h c (List.mem_cons_self c cs)
    have ih₂ := ih (fun d hd => h d (List.mem_cons_of_mem c hd))
    simp [splitPQF, h1, h2, ih₂]

theorem encodeWith_safe (safe : Char → Bool) (l : List Char)
    (h : ∀ c ∈ l, safe c = true) : encodeWith safe l = l := by
  induction l with
  | nil => rfl
  | cons c cs ih =>
    have hc := h c (List.mem_cons_self c cs)
    have ih₂ := ih (fun d hd => h d (List.mem_cons_of_mem c hd))
    simp [encodeWith, hc] at ih₂ ⊢
    exact ih₂

/-- Joining an absolute-path reference whose characters are all path-safe and
delimiter-free replaces the base's path with the reference verbatim and clears
its query and fragment. -/
theorem join_absolute (base : Url) (s : String) (t : List Char)
    (hd : s.data = '/' :: 'a' :: t)
    (hsafe : ∀ c ∈ s.data, pathSafeChar c = true ∧ c ≠ '?' ∧ c ≠ '#') :
    base.join s = some { base with path := s, query := none, fragment := none } := by
  have hs : s = ⟨'/' :: 'a' :: t⟩ := by
    cases s with | mk d => exact congrArg String.mk hd
  subst hs
  simp only [Url.join]
  have htake : takeScheme ('/' :: 'a' :: t) = none := rfl
  rw [htake]
  have hsplit : splitPQF ('/' :: 'a' :: t) = ('/' :: 'a' :: t, none, none) :=
    splitPQF_no_delims (fun c hc => ⟨(hsafe c hc).2.1, (hsafe c hc).2.2⟩)
  have henc : encodePath ('/' :: 'a' :: t) = '/' :: 'a' :: t :=
    encodeWith_safe _ _ (fun c hc => (hsafe c hc).1)
  simp [hsplit, encodePath] at henc ⊢
  simp [henc]

/-- The fixed prefix of every paste path is made of safe characters. -/
theorem prefix_chars_safe :
    ∀ c ∈ "/api/v2/pastes/".data, pathSafeChar c = true ∧ c ≠ '?' ∧ c ≠ '#' := by
  decide

/-- Joining the paste endpoint path for a valid id keeps the base's scheme,
host and port and substitutes the id verbatim into the path. -/
theorem join_pastes_id (base : Url) (id : String) (hid : validPasteId id = true) :
    base.join ("/api/v2/pastes/" ++ id) =
      some { base with path := "/api/v2/pastes/" ++ id, query := none, fragment := none } := by
  have hdata : ("/api/v2/pastes/" ++ id).data = "/api/v2/pastes/".data ++ id.data :=
    String.data_append _ _
  have hd : ("/api/v2/pastes/" ++ id).data = '/' :: 'a' :: ("pi/v2/pastes/".data ++ id.data) := by
    rw [hdata]; rfl
  refine join_absolute base _ _ hd ?_
  intro c hc
  rw [hdata] at hc
  rcases List.mem_append.mp hc with hpre | hin
  · exact prefix_chars_safe c hpre
  · have hch : isPasteIdChar c = true := by
      have := hid
      simp only [validPasteId, List.all_eq_true] at this
      exact this c hin
    exact ⟨pathSafe_of_pasteIdChar hch,
           (ne_qmark_hash_of_pasteIdChar hch).1, (ne_qmark_hash_of_pasteIdChar hch).2⟩

/-! ## Claim theorems -/

/-- C3: deserializing the JSON produced by serializing any `Metadata` value
(with `pf_encryption` either `None` or `Some` of an alg/iv pair) yields a
value equal to it; in particular the `AES`/`abc` example round-trips, options
stay options and no empty-string sentinel appears. -/
theorem metadata_roundtrip (m : Metadata) :
    Metadata.fromJson (Metadata.toJson m) = some m := by
  obtain ⟨pf⟩ := m
  cases pf with
  | none => rfl
  | some e => cases e; rfl

/-- C8: `authenticate` is a pure total function (its type is not a `Result`
and the embedding is pure by construction), and `inner` on the result returns
exactly the wrapped client, host URL and transport handle unchanged, with the
token stored verbatim. -/
theorem authenticate_inner_roundtrip (c : UnauthenticatedClient) (t : String) :
    (c.authenticate t).inner = c ∧
    (c.authenticate t).token = t ∧
    (c.authenticate t).inner.host = c.host ∧
    (c.authenticate t).inner.client = c.client :=
  ⟨rfl, rfl, rfl, rfl⟩

/-- C9: serializing `Metadata { pf_encryption: None }` keeps the key with an
explicit `null` value, and deserializing accepts both the empty object and an
explicit `null`, giving `None` in both cases. -/
theorem metadata_null_handling :
    Metadata.toJson ⟨none⟩ = .obj [("pf_encryption", .null)] ∧
    Metadata.fromJson (.obj []) = some ⟨none⟩ ∧
    Metadata.fromJson (.obj [("pf_encryption", .null)]) = some ⟨none⟩ :=
  ⟨rfl, rfl, rfl⟩

/-- C4: `create_paste("hello", None)` posts exactly the flat body
`content: "hello", metadata: null`, and decoding the flat response object with
sibling keys `id`, `content`, `created`, `metadata`, `modificationToken`
yields the merged `CreatedPaste` with the expected paste fields and token. -/
theorem create_paste_wire_format :
    (UnauthenticatedClient.create_paste ⟨(), exampleHost⟩ "hello" none =
      .ok { method := .POST,
            url := { exampleHost with
                     path := "/api/v2/pastes", query := none, fragment := none },
            headers := [contentTypeJson],
            body := some (.obj [("content", .str "hello"), ("metadata", .null)]) }) ∧
    (CreatedPaste.fromJson (.obj [("id", .str "abc"), ("content", .str "hello"),
        ("created", .num 1000), ("metadata", .null), ("modificationToken", .str "tok")]) =
      some ⟨"tok", ⟨"abc", "hello", 1000, none⟩⟩) :=
  ⟨rfl, rfl⟩

/-- C2: for every client whose host has a host component (every client `new`
can construct) and every valid paste id, `paste(id)` builds a GET request
whose URL is the host URL with its path replaced by `/api/v2/pastes/` followed
by the id verbatim, with no body and no headers (in particular no
authorization header). -/
theorem paste_request_shape (c : UnauthenticatedClient) (id : String)
    (hhost : c.host.hasHost = true) (hid : validPasteId id = true) :
    c.paste id =
      .ok { method := .GET,
            url := { c.host with
                     path := "/api/v2/pastes/" ++ id, query := none, fragment := none },
            headers := [], body := none } := by
  have hj := join_pastes_id c.host id hid
  simp only [UnauthenticatedClient.paste, hj, buildRequest]
  have : ({ c.host with
            path := "/api/v2/pastes/" ++ id, query := none,
            fragment := none } : Url).hasHost = true := hhost
  simp [this]

/-- C2 witness: the concrete request issued for id `abc123` against the
example host. -/
theorem paste_request_shape_witness :
    UnauthenticatedClient.paste ⟨(), exampleHost⟩ "abc123" =
      .ok { method := .GET,
            url := { exampleHost with
                     path := "/api/v2/pastes/abc123", query := none, fragment := none },
            headers := [], body := none } :=
  paste_request_shape ⟨(), exampleHost⟩ "abc123" rfl (by decide)

/-- C7: for every configured host URL (with or without its own path or
query), endpoint URLs are built by URL-join of the fixed `/api/v2/...`
suffix: the host's scheme, host and port survive while its own path, query
and fragment are replaced by the suffix. Stated for the info endpoint's
request and for the join of both fixed literal suffixes. -/
theorem endpoint_join_semantics (u : Url) (h : u.hasHost = true) :
    (UnauthenticatedClient.application_information ⟨(), u⟩ =
      .ok { method := .GET,
            url := { u with path := "/api/v2/info", query := none, fragment := none },
            headers := [], body := none }) ∧
    (u.join "/api/v2/info" =
      some { u with path := "/api/v2/info", query := none, fragment := none }) ∧
    (u.join "/api/v2/pastes" =
      some { u with path := "/api/v2/pastes", query := none, fragment := none }) := by
  refine ⟨?_, rfl, rfl⟩
  have hj : u.join "/api/v2/info" =
      some { u with path := "/api/v2/info", query := none, fragment := none } := rfl
  simp only [UnauthenticatedClient.application_information, hj, buildRequest]
  have : ({ u with
            path := "/api/v2/info", query := none, fragment := none } : Url).hasHost = true := h
  simp [this]

/-- C7 witness: a host URL that carries its own path, query and port; joining
replaces path and query and keeps scheme, host and port. -/
theorem endpoint_join_semantics_witness :
    Url.join ⟨"https", some "pasty.lus.pm", some 8443, "/old", some "q=1", some "f"⟩
        "/api/v2/info" =
      some ⟨"https", some "pasty.lus.pm", some 8443, "/api/v2/info", none, none⟩ :=
  (endpoint_join_semantics ⟨"https", some "pasty.lus.pm", some 8443, "/old",
      some "q=1", some "f"⟩ rfl).2.1

/-- C5: an authenticated `update_paste` request is exactly the unauthenticated
PATCH counterpart (same URL, method, headers and JSON body shape) with the
single header `authorization: Bearer token` appended, the token attached
verbatim; the same holds for `delete_paste`, whose request carries that header
as its only header. -/
theorem auth_header_only_difference (a : AuthenticatedClient) (id : String)
    (content : String) (m : Option Metadata) :
    (a.update_paste id content m =
      (update_paste_unauthenticated a.client id content m).map (addAuthHeader a.token)) ∧
    (a.delete_paste id =
      (delete_paste_unauthenticated a.client id).map (addAuthHeader a.token)) ∧
    (∀ r, a.update_paste id content m = .ok r →
      r.headers = [contentTypeJson, bearerHeader a.token]) ∧
    (∀ r, a.delete_paste id = .ok r → r.headers = [bearerHeader a.token]) := by
  simp only [AuthenticatedClient.update_paste, AuthenticatedClient.delete_paste,
    update_paste_unauthenticated, delete_paste_unauthenticated]
  cases hj : a.client.host.join ("/api/v2/pastes/" ++ id) with
  | none =>
    refine ⟨rfl, rfl, ?_, ?_⟩ <;> (intro r hr; cases hr)
  | some u =>
    by_cases hu : u.hasHost = true
    · refine ⟨?_, ?_, ?_, ?_⟩
      · simp [buildRequest, hu, addAuthHeader, Except.map]
      · simp [buildRequest, hu, addAuthHeader, Except.map]
      · intro r hr
        simp only [buildRequest, hu, if_true] at hr
        cases hr
        rfl
      · intro r hr
        simp only [buildRequest, hu, if_true] at hr
        cases hr
        rfl
    · simp only [buildRequest, hu, if_false, Bool.false_eq_true]
      exact ⟨rfl, rfl, fun r hr => by simp at hr, fun r hr => by simp at hr⟩

/-- C5 witness: the delete request for the example host carries exactly the
bearer header for the configured token. -/
theorem auth_header_only_difference_witness :
    Request.headers
      { method := Method.DELETE,
        url := { exampleHost with
                 path := "/api/v2/pastes/abc", query := none, fragment := none },
        headers := [bearerHeader "tok"], body := none } = [bearerHeader "tok"] :=
  (auth_header_only_difference ⟨⟨(), exampleHost⟩, "tok"⟩ "abc" "hi" none).2.2.2 _ rfl

/-- C1 counterexample: `new("")` does fail, but with the transport
(`Reqwest`) error kind — `IntoUrl` on a string wraps the URL-parse failure
into a `reqwest::Error` before the `?` converts it, so the `UrlParse` variant
is never produced here, contrary to the claim; moreover `data:foo` parses as
a valid URL yet `new("data:foo")` fails (no host), refuting the stated iff. -/
theorem new_error_kind_counterexample :
    UnauthenticatedClient.new "" = .error (.Reqwest .builder) ∧
    Error.Reqwest .builder ≠ Error.UrlParse ∧
    (parseUrl "data:foo").isSome = true ∧
    UnauthenticatedClient.new "data:foo" = .error (.Reqwest .badScheme) :=
  ⟨rfl, by decide, rfl, rfl⟩

/-- C1 (amended): `new(H)` succeeds iff H parses as a valid URL that has a
host component; every failure — malformed string or host-less URL — surfaces
as an error of the transport (`Reqwest`) kind, not `UrlParse`; no network I/O
occurs (the embedding of `new` is a pure function). -/
theorem new_url_validation (h : String) :
    ((UnauthenticatedClient.new h).isOk = true ↔
      ∃ u, parseUrl h = some u ∧ u.hasHost = true) ∧
    (∀ e, UnauthenticatedClient.new h = .error e → ∃ k, e = Error.Reqwest k) := by
  simp only [UnauthenticatedClient.new, intoUrl]
  cases hp : parseUrl h with
  | none =>
    refine ⟨?_, ?_⟩
    · simp [Except.isOk, Except.toBool]
    · intro e he
      cases he
      exact ⟨_, rfl⟩
  | some u =>
    by_cases hh : u.hasHost = true
    · refine ⟨?_, ?_⟩
      · simp only [hh, if_true]
        exact ⟨fun _ => ⟨u, rfl, hh⟩, fun _ => rfl⟩
      · intro e he
        simp only [hh, if_true] at he
        cases he
    · refine ⟨?_, ?_⟩
      · simp only [hh, if_false]
        constructor
        · intro hk
          simp [Except.isOk, Except.toBool] at hk
        · rintro ⟨u₂, hu₂, hh₂⟩
          cases hu₂
          exact absurd hh₂ hh
      · intro e he
        simp only [hh, if_false] at he
        cases he
        exact ⟨_, rfl⟩

/-- C1 witness: a well-formed https host is accepted; the empty string is
rejected with the reqwest error kind. -/
theorem new_url_validation_witness :
    (UnauthenticatedClient.new "https://pasty.lus.pm").isOk = true ∧
    ∃ k, Error.Reqwest ReqwestErrorKind.builder = Error.Reqwest k :=
  ⟨(new_url_validation "https://pasty.lus.pm").1.mpr ⟨exampleHost, rfl, rfl⟩,
   (new_url_validation "").2 (Error.Reqwest .builder) rfl⟩

/-- C6 counterexample: a surfaced `304 Not Modified` (a status reqwest's
redirect policy does not follow and `error_for_status` does not reject)
makes the execute-and-discard shape return success, although 304 is not a
2xx status — the claim's "non-2xx yields an error" is too strong. -/
theorem req_304_counterexample :
    req ⟨304, Json.null⟩ = .ok () ∧ ¬(200 ≤ 304 ∧ 304 ≤ 299) :=
  ⟨rfl, by decide⟩

/-- C6 (amended): for every executed response, a 4xx or 5xx status yields an
error of the single transport (`Reqwest`) kind, uniformly with no 4xx/5xx
distinction and, in the execute-and-discard shape, without attempting any
body decode; a 2xx status makes the discard shape return success with no
value. (A surfaced non-redirected 3xx such as 304 also passes
`error_for_status`, so only 4xx/5xx — not every non-2xx status — errors.) -/
theorem status_error_uniform {α : Type} (res : Response) (decode : Json → Option α) :
    (400 ≤ res.status ∧ res.status ≤ 599 →
      req res = .error (.Reqwest (.status res.status)) ∧
      req_body decode res = .error (.Reqwest (.status res.status))) ∧
    (200 ≤ res.status ∧ res.status ≤ 299 → req res = .ok ()) := by
  constructor
  · intro hs
    constructor <;> simp [req, req_body, errorForStatus, hs]
  · intro hs
    have hns : ¬(400 ≤ res.status ∧ res.status ≤ 599) := by omega
    simp [req, errorForStatus, hns]

/-- C6 witness: a 404 on the paste endpoint surfaces as the transport-kind
status error through both pipeline shapes (never a successful empty result),
and a 204 delete response is plain success. -/
theorem status_error_uniform_witness :
    (req ⟨404, Json.null⟩ = .error (.Reqwest (.status 404)) ∧
     req_body Paste.fromJson ⟨404, Json.null⟩ = .error (.Reqwest (.status 404))) ∧
    req ⟨204, Json.null⟩ = .ok () :=
  ⟨(status_error_uniform ⟨404, Json.null⟩ Paste.fromJson).1 (by decide),
   (status_error_uniform ⟨204, Json.null⟩ Paste.fromJson).2 (by decide)⟩

/-- C10: decoding a `CreatedPaste` fails whenever the flat top-level object
lacks the `modificationToken` key or any required paste field (`id`,
`content`, `created`); and whenever decoding succeeds, the returned
modification token is exactly the string stored under `modificationToken` in
the object — never a defaulted empty string. -/
theorem created_paste_required_fields (fs : List (String × Json)) (cp : CreatedPaste) :
    (lookupField fs "modificationToken" = none → CreatedPaste.fromJson (.obj fs) = none) ∧
    (lookupField fs "id" = none → CreatedPaste.fromJson (.obj fs) = none) ∧
    (lookupField fs "content" = none → CreatedPaste.fromJson (.obj fs) = none) ∧
    (lookupField fs "created" = none → CreatedPaste.fromJson (.obj fs) = none) ∧
    (CreatedPaste.fromJson (.obj fs) = some cp →
      lookupField fs "modificationToken" = some (.str cp.modification_token)) := by
  have hpaste : ∀ k, k = "id" ∨ k = "content" ∨ k = "created" →
      lookupField fs k = none → Paste.fromJson (.obj fs) = none := by
    intro k hk hnone
    simp only [Paste.fromJson]
    rcases hk with rfl | rfl | rfl
    · simp [hnone]
    · cases hid : lookupField fs "id" with
      | none => rfl
      | some v => cases v <;> simp [hnone]
    · cases hid : lookupField fs "id" with
      | none => rfl
      | some v =>
        cases v <;> try rfl
        cases hct : lookupField fs "content" with
        | none => rfl
        | some w => cases w <;> simp [hnone]
  refine ⟨?_, ?_, ?_, ?_, ?_⟩
  · intro hnone
    simp [CreatedPaste.fromJson, hnone]
  · intro hnone
    have hp := hpaste "id" (Or.inl rfl) hnone
    cases hm : lookupField fs "modificationToken" with
    | none => simp [CreatedPaste.fromJson, hm]
    | some v => cases v <;> simp [CreatedPaste.fromJson, hm, hp]
  · intro hnone
    have hp := hpaste "content" (Or.inr (Or.inl rfl)) hnone
    cases hm : lookupField fs "modificationToken" with
    | none => simp [CreatedPaste.fromJson, hm]
    | some v => cases v <;> simp [CreatedPaste.fromJson, hm, hp]
  · intro hnone
    have hp := hpaste "created" (Or.inr (Or.inr rfl)) hnone
    cases hm : lookupField fs "modificationToken" with
    | none => simp [CreatedPaste.fromJson, hm]
    | some v => cases v <;> simp [CreatedPaste.fromJson, hm, hp]
  · intro hok
    simp only [CreatedPaste.fromJson] at hok
    cases hm : lookupField fs "modificationToken" with
    | none => rw [hm] at hok; cases hok
    | some v =>
      rw [hm] at hok
      cases v <;> try cases hok
      rename_i tok
      cases hp : Paste.fromJson (.obj fs) with
      | none => rw [hp] at hok; cases hok
      | some p =>
        rw [hp] at hok
        cases hok
        rfl

/-- C10 witness: the empty object is rejected, and the token decoded from the
flat example object is exactly the string stored under `modificationToken`. -/
theorem created_paste_required_fields_witness :
    CreatedPaste.fromJson (.obj []) = none ∧
    lookupField [("id", Json.str "abc"), ("content", .str "hello"), ("created", .num 1000),
        ("metadata", .null), ("modificationToken", .str "tok")] "modificationToken" =
      some (.str "tok") :=
  ⟨(created_paste_required_fields [] ⟨"tok", ⟨"abc", "hello", 1000, none⟩⟩).1 rfl,
   (created_paste_required_fields _ ⟨"tok", ⟨"abc", "hello", 1000, none⟩⟩).2.2.2.2 rfl⟩

end Pasty
